import Mathlib

/-!
Shallow embedding of the DeepTrader simulation-and-learning engine
(src/DeepTrader/trading_environment.py, src/DeepTrader/dqn_model.py,
src/DeepTrader/config.py).

Account state, prices and portfolio history are modelled over the exact
rationals; reward values are modelled over the reals because the reward
formula divides a population standard deviation (a square root) by a mean.
The feature table is modelled by its CLOSE column, the only column the
account dynamics read.
-/

/- ---------------- definitions: configuration (config.py) ---------------- -/

/-- TRADING_CONFIG transaction_cost = 0.001 (config.py line 49). -/
def transaction_cost : ℚ := 1/1000

/-- MODEL_CONFIG gamma = 0.99 (config.py line 24). -/
def gamma_config : ℚ := 99/100

/-- MODEL_CONFIG epsilon_start = 1.0 (config.py line 25). -/
def epsilon_start_config : ℚ := 1

/-- MODEL_CONFIG epsilon_end = 0.01 (config.py line 26). -/
def epsilon_end_config : ℚ := 1/100

/-- MODEL_CONFIG epsilon_decay = 0.99995 (config.py line 27). -/
def epsilon_decay_config : ℚ := 99995/100000

/- ---------------- definitions: trading environment ---------------- -/

/-- One entry of TradingEnvironment.trades (trading_environment.py lines
172-181 and 193-202).  The fields are the ones every trade record carries
and that _calculate_win_rate reads back: step index, action code
(0 = sell, 2 = buy), execution price, asset amount, proceeds/cost
(value), and fee. -/
structure Trade where
  step : ℕ
  action : ℕ
  price : ℚ
  btc_amount : ℚ
  value : ℚ
  fee : ℚ
  deriving DecidableEq, Inhabited, Repr

/-- The mutable state of TradingEnvironment (trading_environment.py
lines 13-46): the data series (CLOSE column), construction parameters,
cursor, account fields, action tracking and the performance logs. -/
structure EnvState where
  data : List ℚ
  lookback_window : ℕ
  initial_balance : ℚ
  current_step : ℕ
  balance : ℚ
  btc_held : ℚ
  total_value : ℚ
  last_action_step : ℕ
  last_trading_action : Option ℕ
  trades : List Trade
  portfolio_values : List ℚ
  actions_taken : List ℕ
  deriving DecidableEq

/-- TradingEnvironment.reset (trading_environment.py lines 49-67):
clamps the start step to at least the lookback window, reinitializes the
account and clears the logs. -/
def reset (data : List ℚ) (lookback_window : ℕ) (initial_balance : ℚ)
    (start_step : Option ℕ) : EnvState :=
  let cs : ℕ :=
    match start_step with
    | none => lookback_window
    | some k => max k lookback_window
  { data := data
    lookback_window := lookback_window
    initial_balance := initial_balance
    current_step := cs
    balance := initial_balance
    btc_held := 0
    total_value := initial_balance
    last_action_step := cs
    last_trading_action := none
    trades := []
    portfolio_values := []
    actions_taken := [] }

/-- TradingEnvironment._get_current_price (lines 102-104). -/
def getCurrentPrice (s : EnvState) : ℚ :=
  s.data.getD s.current_step 0

/-- TradingEnvironment._can_sell (lines 379-381). -/
def can_sell (s : EnvState) : Bool :=
  decide (0 < s.btc_held) && decide (s.last_trading_action ≠ some 0)

/-- TradingEnvironment._can_buy (lines 383-385). -/
def can_buy (s : EnvState) : Bool :=
  decide (0 < s.balance) && decide (s.last_trading_action ≠ some 2)

/-- The action-constraint check of TradingEnvironment.step (lines
147-160): a requested sell is blocked when _can_sell fails, a requested
buy when _can_buy fails. -/
def action_is_blocked (s : EnvState) (action : ℕ) : Bool :=
  if action = 0 then !can_sell s
  else if action = 2 then !can_buy s
  else false

/-- The action actually executed by TradingEnvironment.step: a blocked
request is forced to hold (action 1) at lines 155 and 160. -/
def effective_action (s : EnvState) (action : ℕ) : ℕ :=
  if action_is_blocked s action then 1 else action

/-- The execute-action part of TradingEnvironment.step (lines 165-209):
sell converts all holdings to cash minus a proportional fee and logs a
trade; buy converts all cash to holdings minus a proportional fee and
logs a trade; hold changes nothing.  Only an executed trade updates
last_action_step and last_trading_action. -/
def execute (s : EnvState) (current_price : ℚ) (action : ℕ) : EnvState :=
  if action = 0 then
    if 0 < s.btc_held then
      let btc_value := s.btc_held * current_price
      let transaction_fee := btc_value * transaction_cost
      { s with
        balance := s.balance + btc_value - transaction_fee
        trades := s.trades ++ [{ step := s.current_step, action := 0, price := current_price,
                                 btc_amount := s.btc_held, value := btc_value,
                                 fee := transaction_fee }]
        btc_held := 0
        last_action_step := s.current_step
        last_trading_action := some 0 }
    else s
  else if action = 2 then
    if 0 < s.balance then
      let transaction_fee := s.balance * transaction_cost
      let investable_amount := s.balance - transaction_fee
      let btc_amount := investable_amount / current_price
      { s with
        trades := s.trades ++ [{ step := s.current_step, action := 2, price := current_price,
                                 btc_amount := btc_amount, value := investable_amount,
                                 fee := transaction_fee }]
        btc_held := btc_amount
        balance := 0
        last_action_step := s.current_step
        last_trading_action := some 2 }
    else s
  else s

/-- The bookkeeping part of TradingEnvironment.step (lines 211-217):
recompute total_value at the execution price, append it to the value
history, record the executed action, advance the cursor. -/
def advance (s : EnvState) (current_price : ℚ) (action : ℕ) : EnvState :=
  { s with
    total_value := s.balance + s.btc_held * current_price
    portfolio_values := s.portfolio_values ++ [s.balance + s.btc_held * current_price]
    actions_taken := s.actions_taken ++ [action]
    current_step := s.current_step + 1 }

/-- numpy mean of a list of rationals. -/
def listMean (l : List ℚ) : ℚ := l.sum / l.length

/-- numpy population variance of a list of rationals. -/
def listVariance (l : List ℚ) : ℚ :=
  (l.map (fun x => (x - listMean l) ^ 2)).sum / l.length

/-- numpy population standard deviation (np.std, ddof = 0). -/
noncomputable def listStd (l : List ℚ) : ℝ := Real.sqrt ((listVariance l : ℚ) : ℝ)

/-- Python slicing l[-n:]. -/
def lastN (n : ℕ) (l : List ℚ) : List ℚ := l.drop (l.length - n)

/-- TradingEnvironment._calculate_reward (lines 106-137), called after
the cursor has advanced and the new total_value has been appended to the
history.  The terms, in source order: scaled portfolio return; idle-time
penalty beyond 30 days; activity bonus when the action was not blocked;
volatility penalty over the last 10 history points when more than 10
points exist; large-loss penalty; large-gain bonus. -/
noncomputable def calculate_reward (s : EnvState) (prev_total_value : ℚ)
    (action_blocked : Bool) : ℝ :=
  let current_total_value := s.total_value
  let portfolio_return : ℚ := (current_total_value - prev_total_value) / prev_total_value
  let reward0 : ℝ := (portfolio_return : ℝ) * 100
  let days_since_action : ℚ := ((s.current_step : ℚ) - (s.last_action_step : ℚ)) / 24
  let reward1 : ℝ :=
    if 30 < days_since_action then reward0 - 0.1 * ((days_since_action : ℝ) - 30) else reward0
  let reward2 : ℝ := if action_blocked then reward1 else reward1 + 0.01
  let reward3 : ℝ :=
    if 10 < s.portfolio_values.length then
      let recent_values := lastN 10 s.portfolio_values
      reward2 - listStd recent_values / ((listMean recent_values : ℚ) : ℝ) * 0.5
    else reward2
  let reward4 : ℝ :=
    if portfolio_return < -(5/100) then reward3 - |(portfolio_return : ℝ)| * 10 else reward3
  let reward5 : ℝ :=
    if 5/100 < portfolio_return then reward4 + (portfolio_return : ℝ) * 5 else reward4
  reward5

/-- The info dictionary returned by a normal TradingEnvironment.step
(lines 227-236). -/
structure StepInfo where
  portfolio_value : ℚ
  balance : ℚ
  btc_held : ℚ
  current_price : ℚ
  action_blocked : Bool
  last_trading_action : Option ℕ
  can_buy : Bool
  can_sell : Bool
  deriving DecidableEq

/-- Either the end-of-data error info (line 142) or the normal info
dictionary. -/
inductive StepInfoT where
  | error (msg : String)
  | data (i : StepInfo)
  deriving DecidableEq

/-- The 4-tuple returned by TradingEnvironment.step: the environment
state standing for the observation returned by _get_state (a pure
function of this state), the reward, the done flag, and the info map. -/
structure StepResult where
  state : EnvState
  reward : ℝ
  done : Bool
  info : StepInfoT

/-- TradingEnvironment.step (lines 139-238).  The early return fires
when the cursor is at or past the last usable index (Python
current_step >= len(data) - 1, i.e. len(data) <= current_step + 1 over
the integers).  Otherwise: constraint check with penalty and override,
execution, bookkeeping and cursor advance, reward, done flag, info. -/
noncomputable def step (s : EnvState) (action : ℕ) : StepResult :=
  if s.data.length ≤ s.current_step + 1 then
    { state := s, reward := 0, done := true, info := StepInfoT.error "End of data" }
  else
    let current_price := getCurrentPrice s
    let action_blocked := action_is_blocked s action
    let reward_penalty : ℝ := if action_blocked then -5 else 0
    let a1 := effective_action s action
    let s2 := advance (execute s current_price a1) current_price a1
    { state := s2
      reward := calculate_reward s2 s.total_value action_blocked + reward_penalty
      done := decide (s2.total_value < s2.initial_balance / 10) ||
              decide (s2.data.length ≤ s2.current_step + 1)
      info := StepInfoT.data
        { portfolio_value := s2.total_value
          balance := s2.balance
          btc_held := s2.btc_held
          current_price := current_price
          action_blocked := action_blocked
          last_trading_action := s2.last_trading_action
          can_buy := can_buy s2
          can_sell := can_sell s2 } }

/-- Driving the environment through a list of requested actions. -/
noncomputable def runSteps (s : EnvState) (actions : List ℕ) : EnvState :=
  actions.foldl (fun t a => (step t a).state) s

/- ---------------- definitions: win rate (trading_environment.py 267-329) ---------------- -/

/-- The inner while loop of _calculate_win_rate (lines 287-308): the
first index at or after j holding a sell trade, if any. -/
def findNextSell (trades : List Trade) (j : ℕ) : Option ℕ :=
  ((trades.drop j).findIdx? (fun t => t.action == 0)).map (fun k => k + j)

/-- The outer while loop of _calculate_win_rate (lines 277-313),
returning (winning_trades, total_complete_trades).  The loop index i
strictly increases on every iteration (to j + 1 after a matched cycle,
else to i + 1), so a fuel of trades.length - matching the Python loop's
own termination argument - is always enough; callers pass exactly that. -/
def winLoop (trades : List Trade) : ℕ → ℕ → ℕ → ℕ → ℕ × ℕ
  | 0, _, winning_trades, total_complete_trades => (winning_trades, total_complete_trades)
  | fuel + 1, i, winning_trades, total_complete_trades =>
    if i + 1 < trades.length then
      let current_trade := trades.getD i default
      if current_trade.action = 2 then
        match findNextSell trades (i + 1) with
        | some j =>
          let next_trade := trades.getD j default
          let total_fees := current_trade.fee + next_trade.fee
          let net_profit :=
            (next_trade.price - current_trade.price) * current_trade.btc_amount - total_fees
          winLoop trades fuel (j + 1)
            (if 0 < net_profit then winning_trades + 1 else winning_trades)
            (total_complete_trades + 1)
        | none => (winning_trades, total_complete_trades)
      else winLoop trades fuel (i + 1) winning_trades total_complete_trades
    else (winning_trades, total_complete_trades)

/-- TradingEnvironment._calculate_win_rate (lines 267-329) as a function
of the trade log, the current holdings and the current price (the only
parts of the environment it reads). -/
def calculate_win_rate (trades : List Trade) (btc_held : ℚ) (current_price : ℚ) : ℚ :=
  if trades.length < 2 then 0
  else
    let wt := winLoop trades trades.length 0 0 0
    let winning_trades := wt.1
    let total_complete_trades := wt.2
    if total_complete_trades = 0 ∧ 0 < trades.length then
      match trades.getLast? with
      | some last_trade =>
        if last_trade.action = 2 ∧ 0 < btc_held then
          if 0 < (current_price - last_trade.price) * btc_held then 1 else 0
        else 0
      | none => 0
    else
      if 0 < total_complete_trades then
        (winning_trades : ℚ) / (total_complete_trades : ℚ)
      else 0

/-- A completed buy-to-sell cycle in a trade log: a buy at some index
followed by a sell at a later index.  Used to state claim C9 in the
words of the specification. -/
def hasCompletedCycle (trades : List Trade) : Prop :=
  ∃ i : Fin trades.length, ∃ j : Fin trades.length,
    i.1 < j.1 ∧ (trades.getD i.1 default).action = 2 ∧ (trades.getD j.1 default).action = 0

instance hasCompletedCycleDecidable (trades : List Trade) :
    Decidable (hasCompletedCycle trades) :=
  inferInstanceAs (Decidable (∃ i : Fin trades.length, ∃ j : Fin trades.length,
    i.1 < j.1 ∧ (trades.getD i.1 default).action = 2 ∧ (trades.getD j.1 default).action = 0))

/- ---------------- definitions: DQN agent (dqn_model.py) ---------------- -/

/-- The per-transition target of DQNAgent.learn (dqn_model.py line 370):
reward + gamma * next_q * (not done), where the boolean factor is 1.0
for a non-terminal transition and 0.0 for a terminal one. -/
def target_q (gamma reward next_q : ℚ) (done : Bool) : ℚ :=
  reward + gamma * next_q * (if done then 0 else 1)

/-- The dueling aggregation of DQN.forward (dqn_model.py line 232):
q_values = value + (advantage - advantage.mean(dim=1)).  The action
dimension has size 3 (config.py action_space_size; DQN output_size). -/
def dueling_q (value : ℚ) (advantage : Fin 3 → ℚ) : Fin 3 → ℚ :=
  fun a => value + (advantage a - (∑ b : Fin 3, advantage b) / 3)

/-- DQN.forward abstracted over its two head networks: for any
parameterization, the value stream and the advantage stream are some
functions of the trunk features, and the output combines them by the
dueling aggregation (dqn_model.py lines 227-234). -/
def dqn_forward (σ : Type) (value_stream : σ → ℚ) (advantage_stream : σ → Fin 3 → ℚ)
    (features : σ) : Fin 3 → ℚ :=
  dueling_q (value_stream features) (advantage_stream features)

/-- The epsilon decay at the end of DQNAgent.learn (dqn_model.py lines
387-389): multiply by epsilon_decay, but only while epsilon is still
above epsilon_end; there is no clamp. -/
def decay_epsilon (eps : ℚ) : ℚ :=
  if epsilon_end_config < eps then eps * epsilon_decay_config else eps

/-- The exploration rate after n updating learn calls, starting from
epsilon_start (dqn_model.py line 247). -/
def epsilon_after (n : ℕ) : ℚ :=
  decay_epsilon^[n] epsilon_start_config

/- ---------------- definitions: claim statements needing a spec-side reading ---------------- -/

/-- The volatility penalty term of the reward formula: 0.5 times the
population standard deviation over the mean of the last 10 total-value
history points. -/
noncomputable def volatility_term (s : EnvState) : ℝ :=
  let recent_values := lastN 10 s.portfolio_values
  listStd recent_values / ((listMean recent_values : ℚ) : ℝ) * 0.5

/-- calculate_reward with the volatility clause removed; every other
term is verbatim the one of calculate_reward.  Used to isolate exactly
when the volatility term participates. -/
noncomputable def calculate_reward_no_volatility (s : EnvState) (prev_total_value : ℚ)
    (action_blocked : Bool) : ℝ :=
  let current_total_value := s.total_value
  let portfolio_return : ℚ := (current_total_value - prev_total_value) / prev_total_value
  let reward0 : ℝ := (portfolio_return : ℝ) * 100
  let days_since_action : ℚ := ((s.current_step : ℚ) - (s.last_action_step : ℚ)) / 24
  let reward1 : ℝ :=
    if 30 < days_since_action then reward0 - 0.1 * ((days_since_action : ℝ) - 30) else reward0
  let reward2 : ℝ := if action_blocked then reward1 else reward1 + 0.01
  let reward4 : ℝ :=
    if portfolio_return < -(5/100) then reward2 - |(portfolio_return : ℝ)| * 10 else reward2
  let reward5 : ℝ :=
    if 5/100 < portfolio_return then reward4 + (portfolio_return : ℝ) * 5 else reward4
  reward5

/-- Claim C1 as stated: after every non-early-return step from a reset
state, total_value equals cash plus holdings times the price at the
cursor position of the finished step (the already advanced cursor). -/
def ClaimC1 : Prop :=
  ∀ (data : List ℚ) (lb : ℕ) (init : ℚ) (start : Option ℕ) (acts : List ℕ) (a : ℕ),
    (runSteps (reset data lb init start) acts).current_step + 1 <
        (runSteps (reset data lb init start) acts).data.length →
    (step (runSteps (reset data lb init start) acts) a).state.total_value =
      (step (runSteps (reset data lb init start) acts) a).state.balance +
        (step (runSteps (reset data lb init start) acts) a).state.btc_held *
          getCurrentPrice (step (runSteps (reset data lb init start) acts) a).state

/-- Claim C7 as stated: across learn calls, epsilon is non-increasing
and never drops below the configured floor epsilon_end. -/
def ClaimC7 : Prop :=
  (∀ n, epsilon_after (n + 1) ≤ epsilon_after n) ∧
  (∀ n, epsilon_end_config ≤ epsilon_after n)

/-- Claim C8 as stated: the volatility term is included exactly when at
least 10 history points exist, and omitted when fewer than 10 exist. -/
def ClaimC8 : Prop :=
  ∀ (s : EnvState) (prev_total_value : ℚ) (action_blocked : Bool),
    calculate_reward s prev_total_value action_blocked =
      calculate_reward_no_volatility s prev_total_value action_blocked -
        (if 10 ≤ s.portfolio_values.length then volatility_term s else 0)

/-- Claim C9 as stated: on a trade log with no completed buy-sell cycle
but at least one trade, ending in an open buy position, the win rate is
1.0 when the open position is currently profitable and 0.0 otherwise. -/
def ClaimC9 : Prop :=
  ∀ (trades : List Trade) (btc_held current_price : ℚ) (last_trade : Trade),
    ¬ hasCompletedCycle trades →
    trades.getLast? = some last_trade →
    last_trade.action = 2 →
    0 < btc_held →
    calculate_win_rate trades btc_held current_price =
      (if 0 < (current_price - last_trade.price) * btc_held then 1 else 0)

/- ---------------- definitions: trade-log invariant for C2 ---------------- -/

/-- The invariant tying the trade log to last_trading_action: the logged
executed actions alternate (no two adjacent equal), the last logged
action is the current last_trading_action, and every logged trade is a
sell of a positive amount or a buy of a positive cost. -/
def TradeLogInv (trades : List Trade) (lta : Option ℕ) : Prop :=
  List.Chain' (fun a b => a ≠ b) (trades.map Trade.action) ∧
  (∀ b, (trades.map Trade.action).getLast? = some b → lta = some b) ∧
  (∀ t ∈ trades, (t.action = 0 ∨ t.action = 2) ∧
    (t.action = 0 → 0 < t.btc_amount) ∧ (t.action = 2 → 0 < t.value))

/-- The environment-level invariant for claim C2. -/
def EnvInv (s : EnvState) : Prop :=
  TradeLogInv s.trades s.last_trading_action

/- ---------------- definitions: concrete inputs for C8 and C9 ---------------- -/

/-- A concrete environment state whose value history holds exactly 10
points with mean 100 and population standard deviation 10. -/
def histState10 : EnvState :=
  { data := [100]
    lookback_window := 0
    initial_balance := 1000
    current_step := 0
    balance := 0
    btc_held := 0
    total_value := 100
    last_action_step := 0
    last_trading_action := none
    trades := []
    portfolio_values := [90, 110, 90, 110, 90, 110, 90, 110, 90, 110]
    actions_taken := [] }

/-- A concrete open buy trade: bought 1 asset unit at price 100. -/
def buyTrade : Trade :=
  { step := 0, action := 2, price := 100, btc_amount := 1, value := 100, fee := 1/10 }

/-- A second concrete buy trade at price 150, for a two-buy log with no
completed cycle. -/
def buyTradeB : Trade :=
  { step := 1, action := 2, price := 150, btc_amount := 1, value := 150, fee := 1/10 }

/- ---------------- helper lemmas about step ---------------- -/

lemma step_of_early (s : EnvState) (a : ℕ) (h : s.data.length ≤ s.current_step + 1) :
    step s a = { state := s, reward := 0, done := true,
                 info := StepInfoT.error "End of data" } := by
  simp [step, h]

lemma step_state_of_not_early (s : EnvState) (a : ℕ)
    (h : ¬ s.data.length ≤ s.current_step + 1) :
    (step s a).state =
      advance (execute s (getCurrentPrice s) (effective_action s a))
        (getCurrentPrice s) (effective_action s a) := by
  simp [step, h]

lemma step_reward_of_not_early (s : EnvState) (a : ℕ)
    (h : ¬ s.data.length ≤ s.current_step + 1) :
    (step s a).reward =
      calculate_reward (step s a).state s.total_value (action_is_blocked s a) +
        (if action_is_blocked s a then -5 else 0) := by
  simp [step, h]

lemma step_info_of_not_early (s : EnvState) (a : ℕ)
    (h : ¬ s.data.length ≤ s.current_step + 1) :
    (step s a).info = StepInfoT.data
      { portfolio_value := (step s a).state.total_value
        balance := (step s a).state.balance
        btc_held := (step s a).state.btc_held
        current_price := getCurrentPrice s
        action_blocked := action_is_blocked s a
        last_trading_action := (step s a).state.last_trading_action
        can_buy := can_buy (step s a).state
        can_sell := can_sell (step s a).state } := by
  simp [step, h]

lemma execute_hold (s : EnvState) (p : ℚ) : execute s p 1 = s := by
  simp [execute]

lemma effective_action_of_blocked (s : EnvState) (a : ℕ)
    (h : action_is_blocked s a = true) : effective_action s a = 1 := by
  simp [effective_action, h]

lemma blocked_of_cannot (s : EnvState) (a : ℕ)
    (h : (a = 0 ∧ can_sell s = false) ∨ (a = 2 ∧ can_buy s = false)) :
    action_is_blocked s a = true := by
  rcases h with ⟨ha, hc⟩ | ⟨ha, hc⟩ <;> subst ha <;> simp [action_is_blocked, hc]

/- ---------------- C3 ---------------- -/

/-- C3: in DQNAgent.learn, a sampled transition with done = true has
target Q-value equal to its stored reward exactly, with no discounted
bootstrapped term. -/
theorem learn_target_terminal (gamma reward next_q : ℚ) :
    target_q gamma reward next_q true = reward := by
  simp [target_q]

/- ---------------- C6 ---------------- -/

/-- C6: for every input and every parameterization of the estimator's
heads, the output satisfies the dueling identity
Q(s,a) = V(s) + A(s,a) - mean_a A(s,a), hence the mean over actions of
Q(s,a) - V(s) is zero (exactly, in exact arithmetic). -/
theorem dueling_mean_identity (σ : Type) (value_stream : σ → ℚ)
    (advantage_stream : σ → Fin 3 → ℚ) (features : σ) :
    (∀ a, dqn_forward σ value_stream advantage_stream features a =
        value_stream features +
          (advantage_stream features a - (∑ b : Fin 3, advantage_stream features b) / 3)) ∧
    (∑ a : Fin 3,
        (dqn_forward σ value_stream advantage_stream features a - value_stream features)) / 3
      = 0 := by
  constructor
  · intro a
    rfl
  · have h : ∀ a : Fin 3,
        dqn_forward σ value_stream advantage_stream features a - value_stream features =
          advantage_stream features a - (∑ b : Fin 3, advantage_stream features b) / 3 := by
      intro a
      simp [dqn_forward, dueling_q]
    rw [Finset.sum_congr rfl (fun a _ => h a), Finset.sum_sub_distrib, Finset.sum_const]
    simp [Finset.card_univ]
    ring

/- ---------------- C5 ---------------- -/

/-- C5: a step call made when the cursor is already at or past the last
usable index returns the current state, reward 0, done = true and an
error marker in info, and leaves cash, holdings, total_value, the last
trading action and the cursor unchanged. -/
theorem stepAtEnd_terminal (s : EnvState) (a : ℕ)
    (h : s.data.length ≤ s.current_step + 1) :
    step s a = { state := s, reward := 0, done := true,
                 info := StepInfoT.error "End of data" } ∧
    (step s a).state.balance = s.balance ∧
    (step s a).state.btc_held = s.btc_held ∧
    (step s a).state.total_value = s.total_value ∧
    (step s a).state.last_trading_action = s.last_trading_action ∧
    (step s a).state.current_step = s.current_step := by
  have he := step_of_early s a h
  rw [he]
  exact ⟨rfl, rfl, rfl, rfl, rfl, rfl⟩

/-- C5 witness: a concrete one-row environment whose cursor is at the
end of the data. -/
theorem stepAtEnd_terminal_witness :
    (reset [100] 0 1000 none).data.length ≤ (reset [100] 0 1000 none).current_step + 1 ∧
    step (reset [100] 0 1000 none) 1 =
      { state := reset [100] 0 1000 none, reward := 0, done := true,
        info := StepInfoT.error "End of data" } :=
  ⟨by decide, (stepAtEnd_terminal (reset [100] 0 1000 none) 1 (by decide)).1⟩

/- ---------------- C1 ---------------- -/

/-- C1 counterexample: from a fresh reset over prices [100, 200, 300]
with lookback 1, a single buy executes at price 200; the step then
advances the cursor to index 2 (price 300), so total_value, which was
computed at price 200, does not equal cash plus holdings times the price
at the finished cursor position. -/
theorem claimC1_false : ¬ ClaimC1 := by
  intro h
  have hc := h [100, 200, 300] 1 1000 none [] 2 (by decide)
  rw [step_state_of_not_early (runSteps (reset [100, 200, 300] 1 1000 none) []) 2
    (by decide)] at hc
  simp [runSteps, reset, execute, advance, effective_action, action_is_blocked,
    can_sell, can_buy, getCurrentPrice, transaction_cost] at hc
  norm_num at hc

/-- C1 (amended): after every step that is not the end-of-data early
return, total_value equals cash plus holdings times the price at the
cursor position at which the action executed - the pre-advance cursor,
one before the cursor position at which the step finishes. -/
theorem step_total_value_invariant (s : EnvState) (a : ℕ)
    (h : s.current_step + 1 < s.data.length) :
    (step s a).state.total_value =
      (step s a).state.balance + (step s a).state.btc_held * getCurrentPrice s := by
  have h2 : ¬ s.data.length ≤ s.current_step + 1 := not_le.mpr h
  rw [step_state_of_not_early s a h2]
  simp [advance]

/-- C1 witness: the amended invariant evaluated on a concrete buy step. -/
theorem step_total_value_invariant_witness :
    (reset [100, 200, 300] 1 1000 none).current_step + 1 <
        (reset [100, 200, 300] 1 1000 none).data.length ∧
    (step (reset [100, 200, 300] 1 1000 none) 2).state.total_value =
      (step (reset [100, 200, 300] 1 1000 none) 2).state.balance +
        (step (reset [100, 200, 300] 1 1000 none) 2).state.btc_held *
          getCurrentPrice (reset [100, 200, 300] 1 1000 none) :=
  ⟨by decide, step_total_value_invariant (reset [100, 200, 300] 1 1000 none) 2 (by decide)⟩

/- ---------------- C4 ---------------- -/

/-- C4: when the requested action is a sell the simulator cannot execute
(or symmetrically a buy), step does not raise (it is a total function
returning a normal-shape result), the action is overridden to hold, the
returned info marks the action as blocked, and a flat -5.0 penalty is
added on top of the base reward. -/
theorem step_blocked_handling (s : EnvState) (a : ℕ)
    (h1 : s.current_step + 1 < s.data.length)
    (h2 : (a = 0 ∧ can_sell s = false) ∨ (a = 2 ∧ can_buy s = false)) :
    (∃ i, (step s a).info = StepInfoT.data i ∧ i.action_blocked = true) ∧
    (step s a).reward =
      calculate_reward (step s a).state s.total_value true + (-5) ∧
    (step s a).state.actions_taken = s.actions_taken ++ [1] ∧
    (step s a).state = advance s (getCurrentPrice s) 1 := by
  have hb : action_is_blocked s a = true := blocked_of_cannot s a h2
  have hne : ¬ s.data.length ≤ s.current_step + 1 := not_le.mpr h1
  have hst : (step s a).state = advance s (getCurrentPrice s) 1 := by
    rw [step_state_of_not_early s a hne, effective_action_of_blocked s a hb, execute_hold]
  refine ⟨⟨_, step_info_of_not_early s a hne, ?_⟩, ?_, ?_, hst⟩
  · simp [hb]
  · rw [step_reward_of_not_early s a hne, hb]
    norm_num
  · rw [hst]
    simp [advance]

/-- C4 witness: a sell request against zero holdings right after reset is
blocked, flagged and penalized. -/
theorem step_blocked_handling_witness :
    (reset [100, 200, 300] 1 1000 none).current_step + 1 <
        (reset [100, 200, 300] 1 1000 none).data.length ∧
    can_sell (reset [100, 200, 300] 1 1000 none) = false ∧
    (∃ i, (step (reset [100, 200, 300] 1 1000 none) 0).info = StepInfoT.data i ∧
        i.action_blocked = true) :=
  ⟨by decide, by decide,
    (step_blocked_handling (reset [100, 200, 300] 1 1000 none) 0 (by decide)
      (Or.inl ⟨rfl, by decide⟩)).1⟩

/- ---------------- C10 ---------------- -/

/-- C10: a blocked request leaves last_trading_action, last_action_step,
cash and holdings unchanged (so it neither resets the idle-time clock
nor touches the consecutive-action constraint), while the cursor still
advances by one and one entry is still appended to the value history. -/
theorem step_blocked_frame (s : EnvState) (a : ℕ)
    (h1 : s.current_step + 1 < s.data.length)
    (h2 : (a = 0 ∧ can_sell s = false) ∨ (a = 2 ∧ can_buy s = false)) :
    (step s a).state.last_trading_action = s.last_trading_action ∧
    (step s a).state.last_action_step = s.last_action_step ∧
    (step s a).state.balance = s.balance ∧
    (step s a).state.btc_held = s.btc_held ∧
    (step s a).state.current_step = s.current_step + 1 ∧
    (step s a).state.portfolio_values =
      s.portfolio_values ++ [s.balance + s.btc_held * getCurrentPrice s] ∧
    (step s a).state.trades = s.trades := by
  have hb : action_is_blocked s a = true := blocked_of_cannot s a h2
  have hne : ¬ s.data.length ≤ s.current_step + 1 := not_le.mpr h1
  have hst : (step s a).state = advance s (getCurrentPrice s) 1 := by
    rw [step_state_of_not_early s a hne, effective_action_of_blocked s a hb, execute_hold]
  rw [hst]
  exact ⟨rfl, rfl, rfl, rfl, rfl, rfl, rfl⟩

/-- C10 witness: the frame conditions evaluated on the concrete blocked
sell right after reset. -/
theorem step_blocked_frame_witness :
    (reset [100, 200, 300] 1 1000 none).current_step + 1 <
        (reset [100, 200, 300] 1 1000 none).data.length ∧
    (step (reset [100, 200, 300] 1 1000 none) 0).state.balance =
      (reset [100, 200, 300] 1 1000 none).balance ∧
    (step (reset [100, 200, 300] 1 1000 none) 0).state.current_step =
      (reset [100, 200, 300] 1 1000 none).current_step + 1 :=
  ⟨by decide,
    (step_blocked_frame (reset [100, 200, 300] 1 1000 none) 0 (by decide)
      (Or.inl ⟨rfl, by decide⟩)).2.2.1,
    (step_blocked_frame (reset [100, 200, 300] 1 1000 none) 0 (by decide)
      (Or.inl ⟨rfl, by decide⟩)).2.2.2.2.1⟩

/- ---------------- C2 ---------------- -/

lemma tradeLogInv_append (trades : List Trade) (lta : Option ℕ) (t : Trade)
    (h : TradeLogInv trades lta) (ha : t.action = 0 ∨ t.action = 2)
    (hlast : lta ≠ some t.action)
    (hb : t.action = 0 → 0 < t.btc_amount) (hv : t.action = 2 → 0 < t.value) :
    TradeLogInv (trades ++ [t]) (some t.action) := by
  obtain ⟨hchain, hlink, hmem⟩ := h
  refine ⟨?_, ?_, ?_⟩
  · rw [List.map_append, List.chain'_append]
    refine ⟨hchain, by simp, ?_⟩
    intro x hx y hy
    simp only [List.map_cons, List.map_nil, List.head?_cons, Option.mem_def,
      Option.some.injEq] at hy
    subst hy
    have hx2 : (trades.map Trade.action).getLast? = some x := hx
    have := hlink x hx2
    intro hxy
    exact hlast (by rw [this, hxy])
  · intro b hbeq
    rw [List.map_append] at hbeq
    simp only [List.map_cons, List.map_nil] at hbeq
    rw [List.getLast?_concat] at hbeq
    exact (Option.some.injEq _ _).mpr (Option.some.injEq _ _ |>.mp hbeq).symm ▸ hbeq.symm ▸ rfl
  · intro x hx
    rcases List.mem_append.mp hx with hx | hx
    · exact hmem x hx
    · rw [List.mem_singleton] at hx
      subst hx
      exact ⟨ha, hb, hv⟩

lemma envInv_reset (data : List ℚ) (lb : ℕ) (init : ℚ) (start : Option ℕ) :
    EnvInv (reset data lb init start) := by
  refine ⟨?_, ?_, ?_⟩ <;> simp [reset]

lemma envInv_advance (s : EnvState) (p : ℚ) (a : ℕ) (h : EnvInv s) :
    EnvInv (advance s p a) := h

lemma can_sell_of_effective (s : EnvState) (a : ℕ) (h : effective_action s a = 0) :
    can_sell s = true := by
  unfold effective_action at h
  by_cases hb : action_is_blocked s a = true
  · rw [if_pos hb] at h
    exact absurd h one_ne_zero
  · rw [if_neg hb] at h
    subst h
    simp [action_is_blocked] at hb
    exact hb

lemma can_buy_of_effective (s : EnvState) (a : ℕ) (h : effective_action s a = 2) :
    can_buy s = true := by
  unfold effective_action at h
  by_cases hb : action_is_blocked s a = true
  · rw [if_pos hb] at h
    exact absurd h (by norm_num)
  · rw [if_neg hb] at h
    subst h
    simp [action_is_blocked] at hb
    exact hb

lemma envInv_execute (s : EnvState) (p : ℚ) (a : ℕ) (h : EnvInv s)
    (hs : a = 0 → can_sell s = true) (h2 : a = 2 → can_buy s = true) :
    EnvInv (execute s p a) := by
  by_cases h0 : a = 0
  · subst h0
    have hcs := hs rfl
    simp only [can_sell, Bool.and_eq_true, decide_eq_true_eq] at hcs
    unfold execute
    rw [if_pos rfl, if_pos hcs.1]
    exact tradeLogInv_append s.trades s.last_trading_action _ h (Or.inl rfl) hcs.2
      (fun _ => hcs.1) (by norm_num)
  · by_cases ha2 : a = 2
    · subst ha2
      have hcb := h2 rfl
      simp only [can_buy, Bool.and_eq_true, decide_eq_true_eq] at hcb
      have hval : 0 < s.balance - s.balance * transaction_cost := by
        unfold transaction_cost
        linarith [hcb.1]
      unfold execute
      rw [if_neg h0, if_pos rfl, if_pos hcb.1]
      exact tradeLogInv_append s.trades s.last_trading_action _ h (Or.inr rfl) hcb.2
        (by norm_num) (fun _ => hval)
    · unfold execute
      rw [if_neg h0, if_neg ha2]
      exact h

lemma envInv_step (s : EnvState) (a : ℕ) (h : EnvInv s) : EnvInv (step s a).state := by
  by_cases he : s.data.length ≤ s.current_step + 1
  · rw [step_of_early s a he]
    exact h
  · rw [step_state_of_not_early s a he]
    exact envInv_advance _ _ _
      (envInv_execute s (getCurrentPrice s) (effective_action s a) h
        (can_sell_of_effective s a) (can_buy_of_effective s a))

lemma envInv_runSteps (s : EnvState) (acts : List ℕ) (h : EnvInv s) :
    EnvInv (runSteps s acts) := by
  induction acts generalizing s with
  | nil => exact h
  | cons a rest ih =>
    have hfold : runSteps s (a :: rest) = runSteps (step s a).state rest := by
      simp [runSteps]
    rw [hfold]
    exact ih _ (envInv_step s a h)

/-- C2: over any trace of steps after a reset, the executed (non-blocked,
non-hold) actions recorded in the trade log never contain two adjacent
equal entries - so never two consecutive sells nor two consecutive buys -
every logged action is a sell or a buy, every executed sell carried a
positive asset amount, and every executed buy a positive cash cost. -/
theorem executed_actions_alternate (data : List ℚ) (lb : ℕ) (init : ℚ)
    (start : Option ℕ) (acts : List ℕ) :
    List.Chain' (fun a b => a ≠ b)
      ((runSteps (reset data lb init start) acts).trades.map Trade.action) ∧
    ∀ t ∈ (runSteps (reset data lb init start) acts).trades,
      (t.action = 0 ∨ t.action = 2) ∧
      (t.action = 0 → 0 < t.btc_amount) ∧ (t.action = 2 → 0 < t.value) := by
  have hinv : EnvInv (runSteps (reset data lb init start) acts) :=
    envInv_runSteps _ acts (envInv_reset data lb init start)
  exact ⟨hinv.1, hinv.2.2⟩

/- ---------------- C7 ---------------- -/

set_option exponentiation.threshold 100000 in
lemma decay_pow_nat_hi : (20000 : ℕ) ^ 92101 < 100 * 19999 ^ 92101 := by decide

set_option exponentiation.threshold 100000 in
lemma decay_pow_nat_lo : 100 * (19999 : ℕ) ^ 92102 < 20000 ^ 92102 := by decide

lemma decay_eq : epsilon_decay_config = (19999 : ℚ) / 20000 := by
  norm_num [epsilon_decay_config]

lemma eps_pow_gt_floor : epsilon_end_config < epsilon_decay_config ^ 92101 := by
  rw [decay_eq, div_pow, epsilon_end_config, div_lt_div_iff₀ (by norm_num) (by positivity)]
  rw [one_mul]
  have h := decay_pow_nat_hi
  exact_mod_cast Nat.lt_of_lt_of_le h (by rw [Nat.mul_comm])

lemma eps_pow_lt_floor : epsilon_decay_config ^ 92102 < epsilon_end_config := by
  rw [decay_eq, div_pow, epsilon_end_config, div_lt_div_iff₀ (by positivity) (by norm_num)]
  rw [one_mul]
  have h := decay_pow_nat_lo
  exact_mod_cast Nat.lt_of_le_of_lt (by rw [Nat.mul_comm]) h

lemma epsilon_after_eq_pow (n : ℕ)
    (h : ∀ k, k < n → epsilon_end_config < epsilon_decay_config ^ k) :
    epsilon_after n = epsilon_decay_config ^ n := by
  induction n with
  | zero => simp [epsilon_after, epsilon_start_config]
  | succ n ih =>
    have hn : epsilon_after n = epsilon_decay_config ^ n :=
      ih (fun k hk => h k (Nat.lt_succ_of_lt hk))
    have hstep : epsilon_after (n + 1) = decay_epsilon (epsilon_after n) := by
      unfold epsilon_after
      rw [Function.iterate_succ_apply']
    rw [hstep, hn, decay_epsilon, if_pos (h n (Nat.lt_succ_self n)), pow_succ]

/-- C7 counterexample: after exactly 92102 updating learn calls the
exploration rate, which decays multiplicatively and is only tested
against the floor before the multiplication, undershoots epsilon_end:
0.99995 to the 92101st power is still above 0.01, so a further
multiplication happens and lands strictly below 0.01. -/
theorem claimC7_false : ¬ ClaimC7 := by
  intro h
  have hk : ∀ k, k < 92102 → epsilon_end_config < epsilon_decay_config ^ k := by
    intro k hk
    have h1 : epsilon_decay_config ^ 92101 ≤ epsilon_decay_config ^ k :=
      pow_le_pow_of_le_one (by rw [decay_eq]; norm_num) (by rw [decay_eq]; norm_num)
        (by omega)
    exact lt_of_lt_of_le eps_pow_gt_floor h1
  have he : epsilon_after 92102 = epsilon_decay_config ^ 92102 :=
    epsilon_after_eq_pow 92102 hk
  have hge := h.2 92102
  rw [he] at hge
  exact absurd hge (not_le.mpr eps_pow_lt_floor)

lemma epsilon_after_lower (n : ℕ) :
    epsilon_end_config * epsilon_decay_config ≤ epsilon_after n := by
  induction n with
  | zero =>
    norm_num [epsilon_after, epsilon_start_config, epsilon_end_config, epsilon_decay_config]
  | succ n ih =>
    have hstep : epsilon_after (n + 1) = decay_epsilon (epsilon_after n) := by
      unfold epsilon_after
      rw [Function.iterate_succ_apply']
    rw [hstep, decay_epsilon]
    split_ifs with h
    · calc epsilon_end_config * epsilon_decay_config
          ≤ epsilon_after n * epsilon_decay_config := by
            have hd : (0 : ℚ) ≤ epsilon_decay_config := by rw [decay_eq]; norm_num
            exact mul_le_mul_of_nonneg_right h.le hd
        _ = epsilon_after n * epsilon_decay_config := rfl
    · exact ih

/-- C7 (amended): across updating learn calls the exploration rate is
monotonically non-increasing, but the floor guarantee is weaker than
claimed: epsilon never drops below epsilon_end times epsilon_decay
(0.0099995), i.e. it can undershoot the configured floor by at most one
decay factor, because the code multiplies whenever epsilon is still
above the floor and never clamps. -/
theorem epsilon_monotone_and_bounded (n : ℕ) :
    epsilon_after (n + 1) ≤ epsilon_after n ∧
    epsilon_end_config * epsilon_decay_config ≤ epsilon_after n := by
  refine ⟨?_, epsilon_after_lower n⟩
  have hstep : epsilon_after (n + 1) = decay_epsilon (epsilon_after n) := by
    unfold epsilon_after
    rw [Function.iterate_succ_apply']
  rw [hstep, decay_epsilon]
  split_ifs with h
  · have hpos : (0 : ℚ) ≤ epsilon_after n :=
      le_trans (by norm_num [epsilon_end_config, epsilon_decay_config]) (epsilon_after_lower n)
    exact mul_le_of_le_one_right hpos (by rw [decay_eq]; norm_num)
  · exact le_refl _

/- ---------------- C8 ---------------- -/

lemma calculate_reward_split (s : EnvState) (prev_total_value : ℚ) (action_blocked : Bool) :
    calculate_reward s prev_total_value action_blocked =
      calculate_reward_no_volatility s prev_total_value action_blocked -
        (if 10 < s.portfolio_values.length then volatility_term s else 0) := by
  simp only [calculate_reward, calculate_reward_no_volatility, volatility_term]
  split_ifs <;> ring

lemma volatility_term_histState10 : volatility_term histState10 = 1/20 := by
  have hlast : lastN 10 histState10.portfolio_values = histState10.portfolio_values := by
    simp [lastN, histState10]
  have hmean : listMean histState10.portfolio_values = 100 := by
    norm_num [listMean, histState10]
  have hvar : listVariance histState10.portfolio_values = 100 := by
    norm_num [listVariance, listMean, histState10]
  have hstd : listStd histState10.portfolio_values = 10 := by
    rw [listStd, hvar]
    rw [show (((100 : ℚ) : ℝ)) = 10 ^ 2 by norm_num]
    exact Real.sqrt_sq (by norm_num)
  simp only [volatility_term, hlast, hstd, hmean]
  norm_num

/-- C8 counterexample: with a value history of exactly 10 points of
positive dispersion, the code omits the volatility term (its condition
is a strict length > 10), while the claim includes it from 10 points on;
on histState10 the two readings differ by exactly 1/20. -/
theorem claimC8_false : ¬ ClaimC8 := by
  intro h
  have hc := h histState10 100 true
  rw [if_pos (by decide : 10 ≤ histState10.portfolio_values.length)] at hc
  have hsplit := calculate_reward_split histState10 100 true
  rw [if_neg (by decide : ¬ 10 < histState10.portfolio_values.length), sub_zero] at hsplit
  rw [hsplit] at hc
  have hzero : volatility_term histState10 = 0 := by linarith
  rw [volatility_term_histState10] at hzero
  norm_num at hzero

/-- C8 (amended): the volatility term is included exactly when strictly
more than 10 history points exist (at least 11), and omitted when 10 or
fewer exist; the source condition is len(portfolio_values) > 10, not
greater or equal. -/
theorem reward_volatility_threshold (s : EnvState) (prev_total_value : ℚ)
    (action_blocked : Bool) :
    (11 ≤ s.portfolio_values.length →
      calculate_reward s prev_total_value action_blocked =
        calculate_reward_no_volatility s prev_total_value action_blocked -
          volatility_term s) ∧
    (s.portfolio_values.length ≤ 10 →
      calculate_reward s prev_total_value action_blocked =
        calculate_reward_no_volatility s prev_total_value action_blocked) := by
  constructor
  · intro h
    rw [calculate_reward_split, if_pos (by omega)]
  · intro h
    rw [calculate_reward_split, if_neg (by omega), sub_zero]

/-- C8 witness: the 10-point history of histState10 falls in the
omitted-term regime. -/
theorem reward_volatility_threshold_witness :
    histState10.portfolio_values.length ≤ 10 ∧
    calculate_reward histState10 100 true =
      calculate_reward_no_volatility histState10 100 true :=
  ⟨by decide, (reward_volatility_threshold histState10 100 true).2 (by decide)⟩

/- ---------------- C9 ---------------- -/

lemma findNextSell_some (trades : List Trade) (m j : ℕ)
    (h : findNextSell trades m = some j) :
    m ≤ j ∧ j < trades.length ∧ (trades.getD j default).action = 0 := by
  unfold findNextSell at h
  rw [Option.map_eq_some'] at h
  obtain ⟨k, hk, hkj⟩ := h
  have hk2 := List.findIdx?_eq_some_iff_findIdx_eq.mp hk
  have hklen : k < (trades.drop m).length := hk2.1
  have hlen2 : k < trades.length - m := by simpa using hklen
  subst hkj
  refine ⟨by omega, by omega, ?_⟩
  have hw : (trades.drop m).findIdx (fun t => t.action == 0) < (trades.drop m).length := by
    rw [hk2.2]
    exact hklen
  have hq := @List.findIdx_getElem _ (fun t => t.action == 0) (trades.drop m) hw
  have hgetd : trades.getD (k + m) default = (trades.drop m).getD k default := by
    rw [List.getD_eq_getElem?_getD, List.getD_eq_getElem?_getD, List.getElem?_drop,
      Nat.add_comm m k]
  have hgd2 : (((trades.drop m).getD k default).action == 0) = true := by
    rw [List.getD_eq_getElem?_getD, List.getElem?_eq_getElem hklen]
    simpa [hk2.2] using hq
  rw [hgetd]
  simpa using hgd2

lemma winLoop_of_no_cycle (trades : List Trade) (hnc : ¬ hasCompletedCycle trades) :
    ∀ fuel i w t, winLoop trades fuel i w t = (w, t) := by
  intro fuel
  induction fuel with
  | zero =>
    intro i w t
    rfl
  | succ fuel ih =>
    intro i w t
    by_cases hg : i + 1 < trades.length
    · by_cases hb : (trades.getD i default).action = 2
      · cases hfs : findNextSell trades (i + 1) with
        | none => simp only [winLoop, if_pos hg, if_pos hb, hfs]
        | some j =>
          exfalso
          obtain ⟨hj1, hj2, hj3⟩ := findNextSell_some trades (i + 1) j hfs
          exact hnc ⟨⟨i, by omega⟩, ⟨j, hj2⟩, (by omega : i < j), hb, hj3⟩
      · simp only [winLoop, if_pos hg, if_neg hb]
        exact ih (i + 1) w t
    · simp [winLoop, hg]

/-- C9 counterexample: a log holding exactly one open buy (bought at
100), with positive holdings and the price at 200, has no completed
cycle and is currently profitable, yet the code returns a win rate of
0.0 because the guard len(trades) < 2 fires before the open-position
fallback is ever reached. -/
theorem claimC9_false : ¬ ClaimC9 := by
  intro h
  have hc := h [buyTrade] 1 200 buyTrade (by decide) rfl rfl (by norm_num)
  rw [if_pos (by norm_num [buyTrade])] at hc
  have h0 : calculate_win_rate [buyTrade] 1 200 = 0 := by
    simp [calculate_win_rate]
  rw [h0] at hc
  norm_num at hc

/-- C9 (amended): the open-position fallback applies only when the log
holds at least two trades: with fewer than two trades (in particular a
single open buy) the win rate is 0.0 regardless of profitability, and
with at least two trades, no completed buy-sell cycle, a final buy and
positive holdings, the win rate is the profitability indicator of the
open position. -/
theorem win_rate_fallback (trades : List Trade) (btc_held current_price : ℚ)
    (last_trade : Trade) :
    (trades.length < 2 → calculate_win_rate trades btc_held current_price = 0) ∧
    (2 ≤ trades.length → ¬ hasCompletedCycle trades →
      trades.getLast? = some last_trade → last_trade.action = 2 → 0 < btc_held →
      calculate_win_rate trades btc_held current_price =
        (if 0 < (current_price - last_trade.price) * btc_held then 1 else 0)) := by
  constructor
  · intro h
    simp only [calculate_win_rate]
    rw [if_pos h]
  · intro hlen hnc hlast hact hbtc
    simp only [calculate_win_rate]
    rw [if_neg (by omega), winLoop_of_no_cycle trades hnc trades.length 0 0 0]
    rw [if_pos (show ((0 : ℕ), (0 : ℕ)).2 = 0 ∧ 0 < trades.length from ⟨rfl, by omega⟩),
      hlast]
    simp [hact, hbtc]

/-- C9 witness: a two-buy log with no completed cycle, open at 150 with
the price at 200, where the fallback fires and reports a win. -/
theorem win_rate_fallback_witness :
    2 ≤ ([buyTrade, buyTradeB] : List Trade).length ∧
    ¬ hasCompletedCycle [buyTrade, buyTradeB] ∧
    calculate_win_rate [buyTrade, buyTradeB] 1 200 =
      (if 0 < ((200 : ℚ) - buyTradeB.price) * 1 then 1 else 0) :=
  ⟨by decide, by decide,
    (win_rate_fallback [buyTrade, buyTradeB] 1 200 buyTradeB).2 (by decide) (by decide)
      rfl rfl (by norm_num)⟩
